import Mathlib

/-!
Verification of the measurement-and-classification engine of the Big O
calculator repository.  The definitions below are a shallow embedding of
`src/calculator.js` (`runAnalysis`, `determineComplexity`, `calculateRMSE`,
the `simple-statistics` helpers it calls) and of
`src/utils/analysisRunner.js` (`runSingleAnalysis`).

JavaScript numbers are modelled by `ℚ`.  The two transcendental operations
the code uses (`Math.log`, `Math.sqrt`) are passed in as an explicit
`MathOps` record, so every definition stays computable; theorems quantify
over the operations, and concrete evaluations use rational approximations
of the real functions (`lnApprox`, `ratSqrt` below).  JavaScript's stable
`Array.prototype.sort` with the comparator `(a, b) => a.rmse - b.rmse` is
modelled by the stable `List.insertionSort` with the corresponding `≤`
relation.  `performance.now()` is modelled by an arbitrary stream
`clock : ℕ → ℚ` of readings consumed one at a time, and invocations of the
candidate algorithm are modelled by counting them (`BenchState.calls`),
which is all the timing code can observe of the candidate.
-/

/-- The transcendental operations used by `calculator.js`
(`Math.log` and `Math.sqrt`), supplied explicitly. -/
structure MathOps where
  log : ℚ → ℚ
  sqrt : ℚ → ℚ

/-- One timing sample `{n, time}` as produced by `runAnalysis`. -/
structure Sample where
  n : ℚ
  time : ℚ
deriving DecidableEq

/-- One entry of the `models` array of `determineComplexity`:
`{type, rmse, complexity}`. -/
structure Model where
  type : String
  rmse : ℚ
  complexity : ℕ
deriving DecidableEq, Inhabited

/-- One entry of the `results` array returned by `determineComplexity`:
`{type, rmse}`. -/
structure Fit where
  type : String
  rmse : ℚ
deriving DecidableEq, Inhabited

/-- The object returned by `determineComplexity` (and by
`runSingleAnalysis`): `{bestFit, confidence, results}`.  `confidence` is an
integer because the code applies `Math.round` before returning. -/
structure ClassificationResult where
  bestFit : String
  confidence : ℤ
  results : List Fit
deriving DecidableEq

/-- `ss.mean`: the arithmetic mean.  (`simple-statistics` raises on an
empty list; here `listMean [] = 0`, and every theorem that needs it keeps
the caller-side guarantee of at least two samples as a hypothesis.) -/
def listMean (l : List ℚ) : ℚ :=
  l.sum / l.length

/-- `calculateRMSE(actual, predicted)` from `calculator.js`:
`sqrt(sum((actual[i] - predicted[i])^2) / actual.length)`. -/
def calculateRMSE (ops : MathOps) (actual predicted : List ℚ) : ℚ :=
  ops.sqrt ((List.zipWith (fun a p => (a - p) ^ 2) actual predicted).sum / actual.length)

/-- `ss.linearRegression`: least-squares slope and intercept, with the
library's special case for a single data point (`m = 0, b = y₀`). -/
def linearRegression (data : List (ℚ × ℚ)) : ℚ × ℚ :=
  if data.length = 1 then (0, (data.headI).2)
  else
    let n : ℚ := data.length
    let sumX := (data.map Prod.fst).sum
    let sumY := (data.map Prod.snd).sum
    let sumXX := (data.map (fun d => d.1 * d.1)).sum
    let sumXY := (data.map (fun d => d.1 * d.2)).sum
    let m := (n * sumXY - sumX * sumY) / (n * sumXX - sumX * sumX)
    (m, sumY / n - m * sumX / n)

/-- The `getRegressionRMSE` helper of `determineComplexity`: regress `time`
against `transform n` and return the RMSE of the predictions. -/
def getRegressionRMSE (ops : MathOps) (transform : ℚ → ℚ) (dataPoints : List Sample) : ℚ :=
  let data := dataPoints.map (fun d => (transform d.n, d.time))
  let model := linearRegression data
  let predictions := dataPoints.map (fun d => model.1 * transform d.n + model.2)
  calculateRMSE ops (dataPoints.map Sample.time) predictions

/-- The `constantRMSE` of `determineComplexity`: RMSE of the flat
mean-of-times predictor. -/
def constantRMSE (ops : MathOps) (dataPoints : List Sample) : ℚ :=
  let timeValues := dataPoints.map Sample.time
  calculateRMSE ops timeValues (timeValues.map (fun _ => listMean timeValues))

/-- The `linearRMSE` of `determineComplexity` (covariate `n`). -/
def linearRMSE (ops : MathOps) (dataPoints : List Sample) : ℚ :=
  getRegressionRMSE ops (fun n => n) dataPoints

/-- The `quadraticRMSE` of `determineComplexity` (covariate `n ** 2`). -/
def quadraticRMSE (ops : MathOps) (dataPoints : List Sample) : ℚ :=
  getRegressionRMSE ops (fun n => n ^ 2) dataPoints

/-- The `logRMSE` of `determineComplexity` (covariate `Math.log(n)`). -/
def logRMSE (ops : MathOps) (dataPoints : List Sample) : ℚ :=
  getRegressionRMSE ops (fun n => ops.log n) dataPoints

/-- The `nLogNRMSE` of `determineComplexity` (covariate `n * Math.log(n)`). -/
def nLogNRMSE (ops : MathOps) (dataPoints : List Sample) : ℚ :=
  getRegressionRMSE ops (fun n => n * ops.log n) dataPoints

/-- The `models` array of `determineComplexity`, in its construction
order (ascending `complexity`). -/
def modelsOf (ops : MathOps) (dataPoints : List Sample) : List Model :=
  [⟨"O(1) - Constant", constantRMSE ops dataPoints, 1⟩,
   ⟨"O(log n) - Logarithmic", logRMSE ops dataPoints, 2⟩,
   ⟨"O(n) - Linear", linearRMSE ops dataPoints, 3⟩,
   ⟨"O(n log n) - Linear-ithmic", nLogNRMSE ops dataPoints, 4⟩,
   ⟨"O(n^2) - Quadratic", quadraticRMSE ops dataPoints, 5⟩]

/-- Comparison used by `models.sort((a, b) => a.rmse - b.rmse)`. -/
def rmseLE (a b : Model) : Prop :=
  a.rmse ≤ b.rmse

instance : DecidableRel rmseLE :=
  fun a b => (inferInstance : Decidable (a.rmse ≤ b.rmse))

instance : IsTotal Model rmseLE :=
  ⟨fun a b => le_total a.rmse b.rmse⟩

instance : IsTrans Model rmseLE :=
  ⟨fun _ _ _ hab hbc => le_trans hab hbc⟩

/-- JavaScript's stable in-place sort of the `models` array by ascending
RMSE. -/
def sortModels (ms : List Model) : List Model :=
  List.insertionSort rmseLE ms

/-- Comparison used by `results.sort((a, b) => a.rmse - b.rmse)`. -/
def fitLE (a b : Fit) : Prop :=
  a.rmse ≤ b.rmse

instance : DecidableRel fitLE :=
  fun a b => (inferInstance : Decidable (a.rmse ≤ b.rmse))

instance : IsTotal Fit fitLE :=
  ⟨fun a b => le_total a.rmse b.rmse⟩

instance : IsTrans Fit fitLE :=
  ⟨fun _ _ _ hab hbc => le_trans hab hbc⟩

/-- The re-sort of the mapped `results` array before returning. -/
def sortFits (fs : List Fit) : List Fit :=
  List.insertionSort fitLE fs

/-- The body of the standard-regime promotion loop of
`determineComplexity`: replace the current best by the candidate when the
candidate is simpler and its RMSE is within the 15% relative tolerance
(`(candidate.rmse - bestModel.rmse) / (bestModel.rmse || 1e-9) < 0.15`). -/
def promoteStep (best cand : Model) : Model :=
  if cand.complexity < best.complexity ∧
      (cand.rmse - best.rmse) / (if best.rmse = 0 then 1 / 1000000000 else best.rmse) < 15 / 100
  then cand else best

/-- The standard-regime best-fit selection: start from `models[0]` of the
RMSE-sorted array and run the promotion loop over `models[1] .. models[4]`. -/
def occamSelect (ms : List Model) : Model :=
  List.foldl promoteStep ms.headI ms.tail

/-- Whether the character list `p` is an initial segment of `s`. -/
def startsWithChars : List Char → List Char → Bool
  | _, [] => true
  | [], _ :: _ => false
  | c :: cs, p :: ps => c == p && startsWithChars cs ps

/-- Whether the character list `p` occurs contiguously inside `s`. -/
def containsChars : List Char → List Char → Bool
  | [], p => p.isEmpty
  | c :: cs, p => startsWithChars (c :: cs) p || containsChars cs p

/-- JavaScript `String.prototype.includes`. -/
def strIncludes (s pat : String) : Bool :=
  containsChars s.toList pat.toList

/-- The ultra-fast-regime best-fit selection of `determineComplexity`:
find the `O(1)` and `O(log n)` entries and keep whichever has the lower
RMSE, defaulting to `O(1)`.  (The fallback arm is unreachable for the
five-model catalog, where both `find`s succeed.) -/
def ultraSelect (ms : List Model) : Model :=
  let o1Model := ms.find? (fun m => strIncludes m.type "O(1)")
  let logModel := ms.find? (fun m => strIncludes m.type "O(log n)")
  match logModel, o1Model with
  | some lm, some om => if lm.rmse < om.rmse then lm else om
  | none, some om => om
  | _, none => ms.headI

/-- The standard-regime `fitQuality` score:
`max(0, 1 - (bestModel.rmse / signalMagnitude) * 2)` with
`signalMagnitude = meanTime > 0 ? meanTime : 1`. -/
def fitQuality (best : Model) (meanTime : ℚ) : ℚ :=
  let signalMagnitude := if 0 < meanTime then meanTime else 1
  let normalizedError := best.rmse / signalMagnitude
  max 0 (1 - normalizedError * 2)

/-- The standard-regime `separation` score, computed against the best and
second-best entries of the RMSE-sorted copy `sortedByFit`:
`min(1, (secondBest.rmse - bestModel.rmse) / (secondBest.rmse || 1))`. -/
def separationScore (sortedByFit : List Model) (best : Model) : ℚ :=
  let secondBest := if sortedByFit.headI = best then sortedByFit.getI 1 else sortedByFit.headI
  min 1 ((secondBest.rmse - best.rmse) / (if secondBest.rmse = 0 then 1 else secondBest.rmse))

/-- JavaScript `Math.round`: round half toward positive infinity. -/
def jsRound (q : ℚ) : ℤ :=
  ⌊q + 1 / 2⌋

/-- The `results` array returned by `determineComplexity`: the sorted
models mapped to `{type, rmse}` and re-sorted by ascending RMSE. -/
def fitResults (ms : List Model) : List Fit :=
  sortFits (ms.map (fun m => ⟨m.type, m.rmse⟩))

/-- The standard-regime confidence before rounding:
`(fitQuality * 0.7 + separation * 0.3) * 100`. -/
def standardConfidence (ops : MathOps) (dataPoints : List Sample) : ℚ :=
  let meanTime := listMean (dataPoints.map Sample.time)
  let models := sortModels (modelsOf ops dataPoints)
  let bestModel := occamSelect models
  let sortedByFit := sortModels models
  (fitQuality bestModel meanTime * (7 / 10) + separationScore sortedByFit bestModel * (3 / 10)) * 100

/-- The ultra-fast branch of `determineComplexity` (taken when
`meanTime < 1e-4`). -/
def ultraResult (ops : MathOps) (dataPoints : List Sample) : ClassificationResult :=
  { bestFit := (ultraSelect (sortModels (modelsOf ops dataPoints))).type
    confidence := jsRound 95
    results := fitResults (sortModels (modelsOf ops dataPoints)) }

/-- The standard branch of `determineComplexity`. -/
def standardResult (ops : MathOps) (dataPoints : List Sample) : ClassificationResult :=
  { bestFit := (occamSelect (sortModels (modelsOf ops dataPoints))).type
    confidence := jsRound (standardConfidence ops dataPoints)
    results := fitResults (sortModels (modelsOf ops dataPoints)) }

/-- `determineComplexity(dataPoints)` from `calculator.js`. -/
def determineComplexity (ops : MathOps) (dataPoints : List Sample) : ClassificationResult :=
  if listMean (dataPoints.map Sample.time) < 1 / 10000 then ultraResult ops dataPoints
  else standardResult ops dataPoints

/-- State of the benchmarker: the index of the next `performance.now()`
reading to consume and the number of invocations of the candidate
algorithm so far. -/
structure BenchState where
  clockIdx : ℕ
  calls : ℕ
deriving DecidableEq

/-- State of the calibration spin-loop of `runAnalysis`:
the benchmark state, the loop counter `calCount` and the latest clock
reading `calEnd`. -/
structure CalState where
  bench : BenchState
  calCount : ℕ
  calEnd : ℚ
deriving DecidableEq

/-- The calibration spin-loop of `runAnalysis`:
`while ((calEnd - calStart) < 5 && calCount < 1000000) { algorithm(...);
calCount++; calEnd = performance.now(); }`.  The fuel argument is
initialised to `1000000`, so the fuel can run out only when
`calCount = 1000000`, where the guard is false anyway; the function
therefore computes exactly the JavaScript loop. -/
def calLoop (clock : ℕ → ℚ) (calStart : ℚ) : ℕ → CalState → CalState
  | 0, c => c
  | fuel + 1, c =>
    if c.calEnd - calStart < 5 ∧ c.calCount < 1000000 then
      calLoop clock calStart fuel
        ⟨⟨c.bench.clockIdx + 1, c.bench.calls + 1⟩, c.calCount + 1, clock c.bench.clockIdx⟩
    else c

/-- Result of the per-size calibration: the benchmark state after the
loop, the invocation count, and `calDuration = calEnd - calStart`. -/
structure CalOut where
  bench : BenchState
  calCount : ℕ
  calDuration : ℚ
deriving DecidableEq

/-- The per-size calibration of `runAnalysis`: read `calStart`, run the
spin-loop starting from `calEnd = calStart` and `calCount = 0`, and
return the invocation count and elapsed duration. -/
def calibrateSize (clock : ℕ → ℚ) (st : BenchState) : CalOut :=
  let calStart := clock st.clockIdx
  let st1 : BenchState := ⟨st.clockIdx + 1, st.calls⟩
  let c := calLoop clock calStart 1000000 ⟨st1, 0, calStart⟩
  ⟨c.bench, c.calCount, c.calEnd - calStart⟩

/-- The batch-size computation of `runAnalysis`: `batchSize = 1` unless
`calCount > 1`, in which case
`batchSize = Math.ceil((15 * calCount) / (calDuration || 0.001))`. -/
def computeBatchSize (calCount : ℕ) (calDuration : ℚ) : ℤ :=
  if 1 < calCount then
    ⌈(15 * calCount : ℚ) / (if calDuration = 0 then 1 / 1000 else calDuration)⌉
  else 1

/-- One timed measurement iteration of `runAnalysis`: read `start`,
invoke the candidate `batchSize` times (a JavaScript `for` loop, so zero
times when `batchSize ≤ 0`), read `end`, and return
`(end - start) / batchSize`. -/
def measureIter (clock : ℕ → ℚ) (batchSize : ℤ) (st : BenchState) : ℚ × BenchState :=
  let start := clock st.clockIdx
  let st1 : BenchState := ⟨st.clockIdx + 1, st.calls + batchSize.toNat⟩
  let stop := clock st1.clockIdx
  ((stop - start) / (batchSize : ℚ), ⟨st1.clockIdx + 1, st1.calls⟩)

/-- The measurement loop of `runAnalysis`: `iterations` timed batches. -/
def measureLoop (clock : ℕ → ℚ) (batchSize : ℤ) : ℕ → BenchState → List ℚ × BenchState
  | 0, st => ([], st)
  | k + 1, st =>
    let r := measureIter clock batchSize st
    let rest := measureLoop clock batchSize k r.2
    (r.1 :: rest.1, rest.2)

/-- The per-size body of `runAnalysis`: calibrate, compute the batch
size, run the measurement loop, and emit `{n, time: mean(times)}`. -/
def measureSize (clock : ℕ → ℚ) (iterations : ℕ) (st : BenchState) (n : ℚ) :
    Sample × BenchState :=
  let c := calibrateSize clock st
  let batchSize := computeBatchSize c.calCount c.calDuration
  let r := measureLoop clock batchSize iterations c.bench
  (⟨n, listMean r.1⟩, r.2)

/-- The main `for (const n of inputSizes)` loop of `runAnalysis`. -/
def runAnalysisGo (clock : ℕ → ℚ) (iterations : ℕ) : List ℚ → BenchState → List Sample × BenchState
  | [], st => ([], st)
  | n :: rest, st =>
    let r := measureSize clock iterations st n
    let rr := runAnalysisGo clock iterations rest r.2
    (r.1 :: rr.1, rr.2)

/-- `runAnalysis(algorithm, inputSizes, iterations, inputMode)` from
`calculator.js`: warm up with 100 invocations when `inputSizes` is
non-empty, then process each size in order.  The returned `BenchState`
exposes the clock readings consumed and candidate invocations made. -/
def runAnalysis (clock : ℕ → ℚ) (inputSizes : List ℚ) (iterations : ℕ) :
    List Sample × BenchState :=
  let st0 : BenchState := ⟨0, 0⟩
  let st1 : BenchState := if inputSizes.isEmpty then st0 else ⟨st0.clockIdx, st0.calls + 100⟩
  runAnalysisGo clock iterations inputSizes st1

/-- `runSingleAnalysis(algorithm, inputSizes, iterations, inputMode)` from
`src/utils/analysisRunner.js`: with fewer than two input sizes return the
degenerate `{bestFit: 'N/A', confidence: 0, results: []}` without
benchmarking; otherwise benchmark and classify. -/
def runSingleAnalysis (ops : MathOps) (clock : ℕ → ℚ) (inputSizes : List ℚ)
    (iterations : ℕ) : ClassificationResult :=
  if inputSizes.length < 2 then ⟨"N/A", 0, []⟩
  else determineComplexity ops (runAnalysis clock inputSizes iterations).1

/-- Comparison by ascending simplicity rank (`complexity`). -/
def complexityLE (a b : Model) : Prop :=
  a.complexity ≤ b.complexity

instance : DecidableRel complexityLE :=
  fun a b => (inferInstance : Decidable (a.complexity ≤ b.complexity))

/-- Selection procedure following the specification text of the
simplicity tie-break: start from the provisional (minimum-RMSE) best fit
and scan the models in ascending simplicity rank order
(constant → logarithmic → linear → linearithmic → quadratic), promoting a
simpler candidate whenever its relative RMSE excess is below 15%.  This
is the specification's wording, kept separate from the code's
`occamSelect`, which scans in ascending RMSE order instead. -/
def scanBySimplicityRank (ms : List Model) : Model :=
  List.foldl promoteStep (sortModels ms).headI (List.insertionSort complexityLE ms)

/-- Rational approximation of the natural logarithm at the sample sizes
used in the concrete evaluations below (six decimal digits). -/
def lnApprox (q : ℚ) : ℚ :=
  if q = 2 then 693147 / 1000000
  else if q = 3 then 1098612 / 1000000
  else if q = 4 then 1386294 / 1000000
  else if q = 5 then 1609438 / 1000000
  else if q = 8 then 2079442 / 1000000
  else if q = 16 then 2772589 / 1000000
  else 0

/-- Integer Newton iteration for the integer square root, with fuel. -/
def heron (n : ℕ) : ℕ → ℕ → ℕ
  | 0, g => g
  | f + 1, g =>
    let g2 := (g + n / g) / 2
    if g2 < g then heron n f g2 else g

/-- Integer square root via `heron` (the fuel is ample for every argument
appearing in the concrete evaluations below). -/
def intSqrt (n : ℕ) : ℕ :=
  if n ≤ 1 then n else heron n 120 (n / 2 + 1)

/-- Rational approximation of the square root, correct to about six
decimal digits on the magnitudes used in the concrete evaluations. -/
def ratSqrt (q : ℚ) : ℚ :=
  (intSqrt (⌊q * 1000000000000⌋).toNat : ℚ) / 1000000

/-- The concrete `MathOps` used for closed-form evaluations. -/
def ratOps : MathOps :=
  ⟨lnApprox, ratSqrt⟩

theorem ratSqrt_nonneg (q : ℚ) : 0 ≤ ratSqrt q := by
  unfold ratSqrt
  positivity

lemma determineComplexity_of_standard (ops : MathOps) (samples : List Sample)
    (h : ¬ listMean (samples.map Sample.time) < 1 / 10000) :
    determineComplexity ops samples = standardResult ops samples :=
  if_neg h

lemma determineComplexity_of_ultra (ops : MathOps) (samples : List Sample)
    (h : listMean (samples.map Sample.time) < 1 / 10000) :
    determineComplexity ops samples = ultraResult ops samples :=
  if_pos h

lemma promoteStep_complexity_le (best cand : Model) :
    (promoteStep best cand).complexity ≤ best.complexity := by
  unfold promoteStep
  by_cases h : cand.complexity < best.complexity ∧
      (cand.rmse - best.rmse) / (if best.rmse = 0 then 1 / 1000000000 else best.rmse) < 15 / 100
  · rw [if_pos h]; exact le_of_lt h.1
  · rw [if_neg h]

lemma foldl_promoteStep_complexity_le (l : List Model) (acc : Model) :
    (List.foldl promoteStep acc l).complexity ≤ acc.complexity := by
  induction l generalizing acc with
  | nil => exact le_rfl
  | cons x xs ih =>
    calc (List.foldl promoteStep (promoteStep acc x) xs).complexity
        ≤ (promoteStep acc x).complexity := ih (promoteStep acc x)
      _ ≤ acc.complexity := promoteStep_complexity_le acc x

lemma promoteStep_eq_or_eq (best cand : Model) :
    promoteStep best cand = best ∨ promoteStep best cand = cand := by
  unfold promoteStep
  by_cases h : cand.complexity < best.complexity ∧
      (cand.rmse - best.rmse) / (if best.rmse = 0 then 1 / 1000000000 else best.rmse) < 15 / 100
  · exact Or.inr (if_pos h)
  · exact Or.inl (if_neg h)

lemma foldl_promoteStep_mem (l : List Model) (acc : Model) :
    List.foldl promoteStep acc l = acc ∨ List.foldl promoteStep acc l ∈ l := by
  induction l generalizing acc with
  | nil => exact Or.inl rfl
  | cons x xs ih =>
    rw [List.foldl_cons]
    rcases ih (promoteStep acc x) with h | h
    · rw [h]
      rcases promoteStep_eq_or_eq acc x with h2 | h2
      · exact Or.inl h2
      · rw [h2]; exact Or.inr (List.mem_cons_self x xs)
    · exact Or.inr (List.mem_cons_of_mem x h)

lemma sortModels_sorted (ms : List Model) : List.Sorted rmseLE (sortModels ms) :=
  List.sorted_insertionSort rmseLE ms

lemma mem_sortModels {a : Model} {ms : List Model} : a ∈ sortModels ms ↔ a ∈ ms :=
  List.mem_insertionSort rmseLE

lemma sortModels_length (ms : List Model) : (sortModels ms).length = ms.length :=
  (List.perm_insertionSort rmseLE ms).length_eq

lemma sortFits_sorted (fs : List Fit) : List.Sorted fitLE (sortFits fs) :=
  List.sorted_insertionSort fitLE fs

lemma sortFits_length (fs : List Fit) : (sortFits fs).length = fs.length :=
  (List.perm_insertionSort fitLE fs).length_eq

lemma sortModels_modelsOf_ne_nil (ops : MathOps) (samples : List Sample) :
    sortModels (modelsOf ops samples) ≠ [] := by
  intro h
  have := sortModels_length (modelsOf ops samples)
  rw [h] at this
  simp [modelsOf] at this

lemma headI_mem_of_ne_nil {l : List Model} (h : l ≠ []) : l.headI ∈ l := by
  cases l with
  | nil => exact absurd rfl h
  | cons x xs => exact List.mem_cons_self x xs

lemma sorted_headI_le {l : List Model} (hs : List.Sorted rmseLE l) {m : Model}
    (hm : m ∈ l) : l.headI.rmse ≤ m.rmse := by
  cases l with
  | nil => cases hm
  | cons x xs =>
    rcases List.mem_cons.mp hm with rfl | hm2
    · exact le_rfl
    · exact (List.sorted_cons.mp hs).1 m hm2

lemma find?_eq_some_of_unique {p : Model → Bool} {a : Model} :
    ∀ {l : List Model}, a ∈ l → p a = true → (∀ b ∈ l, p b = true → b = a) →
      l.find? p = some a := by
  intro l
  induction l with
  | nil => intro h; cases h
  | cons x xs ih =>
    intro ha hpa huniq
    by_cases hpx : p x = true
    · rw [List.find?_cons_of_pos xs hpx, huniq x (List.mem_cons_self x xs) hpx]
    · rw [List.find?_cons_of_neg xs (by simpa using hpx)]
      have hax : a ≠ x := fun h => hpx (h ▸ hpa)
      have ha2 : a ∈ xs := by
        rcases List.mem_cons.mp ha with h | h
        · exact absurd h hax
        · exact h
      exact ih ha2 hpa (fun b hb hpb => huniq b (List.mem_cons_of_mem x hb) hpb)

lemma modelsOf_rmse_nonneg {ops : MathOps} (hs : ∀ q, 0 ≤ ops.sqrt q)
    (samples : List Sample) : ∀ m ∈ modelsOf ops samples, 0 ≤ m.rmse := by
  intro m hm
  simp only [modelsOf, List.mem_cons, List.not_mem_nil, or_false] at hm
  rcases hm with rfl | rfl | rfl | rfl | rfl
  · exact hs _
  · exact hs _
  · exact hs _
  · exact hs _
  · exact hs _

lemma calLoop_exit (clock : ℕ → ℚ) (calStart : ℚ) :
    ∀ (fuel : ℕ) (c : CalState), c.calCount + fuel = 1000000 →
      (calLoop clock calStart fuel c).calCount ≤ 1000000 ∧
      (5 ≤ (calLoop clock calStart fuel c).calEnd - calStart ∨
       (calLoop clock calStart fuel c).calCount = 1000000) := by
  intro fuel
  induction fuel with
  | zero =>
    intro c h
    simp only [calLoop]
    omega
  | succ f ih =>
    intro c h
    simp only [calLoop]
    by_cases hg : c.calEnd - calStart < 5 ∧ c.calCount < 1000000
    · rw [if_pos hg]
      exact ih _ (by simp; omega)
    · rw [if_neg hg]
      rcases not_and_or.mp hg with h5 | hc
      · exact ⟨by omega, Or.inl (le_of_not_lt h5)⟩
      · exact ⟨by omega, Or.inr (by omega)⟩

lemma calLoop_calEnd_ge (clock : ℕ → ℚ) (calStart : ℚ) (i0 : ℕ)
    (hm : ∀ i j : ℕ, i ≤ j → clock i ≤ clock j) (hstart : calStart = clock i0) :
    ∀ (fuel : ℕ) (c : CalState), i0 ≤ c.bench.clockIdx → calStart ≤ c.calEnd →
      calStart ≤ (calLoop clock calStart fuel c).calEnd := by
  intro fuel
  induction fuel with
  | zero =>
    intro c _ hend
    simpa only [calLoop] using hend
  | succ f ih =>
    intro c hidx hend
    simp only [calLoop]
    by_cases hg : c.calEnd - calStart < 5 ∧ c.calCount < 1000000
    · rw [if_pos hg]
      refine ih _ ?_ ?_
      · exact le_trans hidx (Nat.le_succ _)
      · rw [hstart]
        exact hm i0 c.bench.clockIdx hidx
    · rw [if_neg hg]
      exact hend

lemma calibrateSize_duration_nonneg (clock : ℕ → ℚ) (st : BenchState)
    (hm : ∀ i j : ℕ, i ≤ j → clock i ≤ clock j) :
    0 ≤ (calibrateSize clock st).calDuration := by
  have h := calLoop_calEnd_ge clock (clock st.clockIdx) st.clockIdx hm rfl 1000000
    ⟨⟨st.clockIdx + 1, st.calls⟩, 0, clock st.clockIdx⟩ (Nat.le_succ _) le_rfl
  exact sub_nonneg.mpr h

lemma runAnalysisGo_map_n (clock : ℕ → ℚ) (iterations : ℕ) :
    ∀ (l : List ℚ) (st : BenchState),
      ((runAnalysisGo clock iterations l st).1.map Sample.n) = l := by
  intro l
  induction l with
  | nil => intro st; rfl
  | cons n rest ih =>
    intro st
    have hn : ((measureSize clock iterations st n).1).n = n := rfl
    simp only [runAnalysisGo, List.map_cons, hn, ih]

section
attribute [local semireducible] Rat.add Rat.mul Rat.sub Rat.inv Rat.ofScientific

/-- C1 counterexample: with a single input size the facade returns the
degenerate result labelled `"N/A"`, not `"undetermined"` as claimed — the
label `"undetermined"` appears nowhere in the code. -/
theorem c1_counterexample :
    (runSingleAnalysis ratOps (fun _ => 0) [5] 10).bestFit = "N/A" ∧
    ¬ (runSingleAnalysis ratOps (fun _ => 0) [5] 10).bestFit = "undetermined" := by
  constructor
  · decide
  · decide

/-- C1 (amended): for every input-size list with fewer than 2 elements
(hence fewer than 2 samples), the analysis facade returns the degenerate
result `{bestFit: "N/A", confidence: 0, results: []}` — with the label
`"N/A"`, not `"undetermined"` — and, being a total function, does not
raise. -/
theorem c1_degenerate (ops : MathOps) (clock : ℕ → ℚ) (sizes : List ℚ) (iterations : ℕ)
    (h : sizes.length < 2) :
    runSingleAnalysis ops clock sizes iterations = ⟨"N/A", 0, []⟩ := by
  unfold runSingleAnalysis
  rw [if_pos h]

/-- Witness for `c1_degenerate` at the empty size list. -/
theorem c1_degenerate_witness :
    ([] : List ℚ).length < 2 ∧
    runSingleAnalysis ratOps (fun _ => 0) [] 10 = ⟨"N/A", 0, []⟩ :=
  ⟨by decide, c1_degenerate ratOps (fun _ => 0) [] 10 (by decide)⟩

/-- C7: the benchmarker returns exactly one sample per element of the
sizes list, carrying the sizes in input order; on the empty sizes list it
returns no samples, consumes no clock readings, and never invokes the
candidate (the final `calls` count stays 0, so no warmup happens). -/
theorem c7_one_sample_per_size (clock : ℕ → ℚ) (sizes : List ℚ) (iterations : ℕ) :
    ((runAnalysis clock sizes iterations).1.map Sample.n = sizes) ∧
    runAnalysis clock [] iterations = ([], ⟨0, 0⟩) := by
  constructor
  · unfold runAnalysis
    exact runAnalysisGo_map_n clock iterations sizes _
  · rfl

/-- C8: for every clock behavior (any reading stream, advancing or not)
the calibration loop terminates with its declared invariant: the
invocation count never exceeds the 10⁶ ceiling, and at exit either at
least 5 time units have elapsed or the count has reached the ceiling. -/
theorem c8_calibration_terminates (clock : ℕ → ℚ) (st : BenchState) :
    (calibrateSize clock st).calCount ≤ 1000000 ∧
    (5 ≤ (calibrateSize clock st).calDuration ∨
     (calibrateSize clock st).calCount = 1000000) := by
  exact calLoop_exit clock (clock st.clockIdx) 1000000
    ⟨⟨st.clockIdx + 1, st.calls⟩, 0, clock st.clockIdx⟩ (by norm_num)

/-- C9 counterexample: a calibration that reaches the 5-unit threshold on
its very first invocation ends with `calCount = 1` and `calDuration = 5`;
the code then keeps `batchSize = 1`, while the claimed formula
`ceil(15 × calCount / calDuration)` gives 3. -/
theorem c9_counterexample :
    (calibrateSize (fun i => 5 * (i : ℚ)) ⟨0, 0⟩).calCount = 1 ∧
    (calibrateSize (fun i => 5 * (i : ℚ)) ⟨0, 0⟩).calDuration = 5 ∧
    computeBatchSize 1 5 = 1 ∧
    (⌈(15 * 1 : ℚ) / 5⌉ : ℤ) = 3 := by
  refine ⟨?_, ?_, ?_, ?_⟩ <;> decide

/-- C9 (amended): the batch size equals
`ceil(15 × calCount / calDuration)` (with a zero duration replaced by
0.001) only when `calCount > 1`; when the calibration finished in a
single invocation the batch size stays 1.  Under a non-decreasing clock
the computed batch size is always at least 1. -/
theorem c9_batch_size (clock : ℕ → ℚ) (st : BenchState)
    (hm : ∀ i j : ℕ, i ≤ j → clock i ≤ clock j) :
    computeBatchSize (calibrateSize clock st).calCount (calibrateSize clock st).calDuration =
      (if 1 < (calibrateSize clock st).calCount then
        ⌈(15 * ((calibrateSize clock st).calCount : ℚ)) /
          (if (calibrateSize clock st).calDuration = 0 then 1 / 1000
           else (calibrateSize clock st).calDuration)⌉
      else 1) ∧
    1 ≤ computeBatchSize (calibrateSize clock st).calCount
          (calibrateSize clock st).calDuration := by
  refine ⟨rfl, ?_⟩
  have hd : 0 ≤ (calibrateSize clock st).calDuration :=
    calibrateSize_duration_nonneg clock st hm
  unfold computeBatchSize
  by_cases hc : 1 < (calibrateSize clock st).calCount
  · rw [if_pos hc]
    have h2 : (1 : ℚ) ≤ ((calibrateSize clock st).calCount : ℚ) := by
      exact_mod_cast Nat.one_le_of_lt hc
    have hden : (0 : ℚ) <
        (if (calibrateSize clock st).calDuration = 0 then 1 / 1000
         else (calibrateSize clock st).calDuration) := by
      split
      · norm_num
      · next hne => exact lt_of_le_of_ne hd (Ne.symm hne)
    have hpos : (0 : ℚ) <
        (15 * ((calibrateSize clock st).calCount : ℚ)) /
          (if (calibrateSize clock st).calDuration = 0 then 1 / 1000
           else (calibrateSize clock st).calDuration) := by
      apply div_pos (by linarith) hden
    exact Int.ceil_pos.mpr hpos
  · rw [if_neg hc]

/-- Witness for `c9_batch_size` at the identity clock. -/
theorem c9_batch_size_witness :
    (∀ i j : ℕ, i ≤ j → ((i : ℚ) ≤ (j : ℚ))) ∧
    (computeBatchSize (calibrateSize (fun i => (i : ℚ)) ⟨0, 0⟩).calCount
        (calibrateSize (fun i => (i : ℚ)) ⟨0, 0⟩).calDuration =
      (if 1 < (calibrateSize (fun i => (i : ℚ)) ⟨0, 0⟩).calCount then
        ⌈(15 * ((calibrateSize (fun i => (i : ℚ)) ⟨0, 0⟩).calCount : ℚ)) /
          (if (calibrateSize (fun i => (i : ℚ)) ⟨0, 0⟩).calDuration = 0 then 1 / 1000
           else (calibrateSize (fun i => (i : ℚ)) ⟨0, 0⟩).calDuration)⌉
      else 1) ∧
    1 ≤ computeBatchSize (calibrateSize (fun i => (i : ℚ)) ⟨0, 0⟩).calCount
          (calibrateSize (fun i => (i : ℚ)) ⟨0, 0⟩).calDuration) :=
  ⟨fun i j h => by show (i : ℚ) ≤ (j : ℚ); exact_mod_cast h,
   c9_batch_size (fun i => (i : ℚ)) ⟨0, 0⟩
     (fun i j h => by show (i : ℚ) ≤ (j : ℚ); exact_mod_cast h)⟩

end

lemma determineComplexity_results_eq (ops : MathOps) (samples : List Sample) :
    (determineComplexity ops samples).results =
      fitResults (sortModels (modelsOf ops samples)) := by
  unfold determineComplexity
  split
  · rfl
  · rfl

lemma determineComplexity_results_length (ops : MathOps) (samples : List Sample) :
    (determineComplexity ops samples).results.length = 5 := by
  rw [determineComplexity_results_eq]
  unfold fitResults
  rw [sortFits_length, List.length_map, sortModels_length]
  rfl

lemma occamSelect_mem_modelsOf (ops : MathOps) (samples : List Sample) :
    occamSelect (sortModels (modelsOf ops samples)) ∈ modelsOf ops samples := by
  unfold occamSelect
  rcases foldl_promoteStep_mem (sortModels (modelsOf ops samples)).tail
      (sortModels (modelsOf ops samples)).headI with h | h
  · rw [h]
    exact mem_sortModels.mp
      (headI_mem_of_ne_nil (sortModels_modelsOf_ne_nil ops samples))
  · exact mem_sortModels.mp (List.mem_of_mem_tail h)

lemma ultraSelect_mem {ms : List Model} (hne : ms ≠ []) : ultraSelect ms ∈ ms := by
  unfold ultraSelect
  cases hl : ms.find? (fun m => strIncludes m.type "O(log n)") with
  | none =>
    cases ho : ms.find? (fun m => strIncludes m.type "O(1)") with
    | none => exact headI_mem_of_ne_nil hne
    | some om => exact List.mem_of_find?_eq_some ho
  | some lm =>
    cases ho : ms.find? (fun m => strIncludes m.type "O(1)") with
    | none => exact headI_mem_of_ne_nil hne
    | some om =>
      show (if lm.rmse < om.rmse then lm else om) ∈ ms
      by_cases hr : lm.rmse < om.rmse
      · rw [if_pos hr]
        exact List.mem_of_find?_eq_some hl
      · rw [if_neg hr]
        exact List.mem_of_find?_eq_some ho

lemma fitQuality_nonneg (best : Model) (meanTime : ℚ) : 0 ≤ fitQuality best meanTime :=
  le_max_left 0 _

lemma fitQuality_le_one (best : Model) (meanTime : ℚ) (hb : 0 ≤ best.rmse) :
    fitQuality best meanTime ≤ 1 := by
  unfold fitQuality
  have hsig : 0 < (if 0 < meanTime then meanTime else 1) := by
    split
    · next hgt => exact hgt
    · norm_num
  have hne : 0 ≤ best.rmse / (if 0 < meanTime then meanTime else 1) :=
    div_nonneg hb (le_of_lt hsig)
  exact max_le (by norm_num) (by linarith)

lemma separationScore_le_one (sortedByFit : List Model) (best : Model) :
    separationScore sortedByFit best ≤ 1 :=
  min_le_left 1 _

lemma standardConfidence_le_100 {ops : MathOps} (hs : ∀ q, 0 ≤ ops.sqrt q)
    (samples : List Sample) : standardConfidence ops samples ≤ 100 := by
  show (fitQuality (occamSelect (sortModels (modelsOf ops samples)))
          (listMean (samples.map Sample.time)) * (7 / 10) +
        separationScore (sortModels (sortModels (modelsOf ops samples)))
          (occamSelect (sortModels (modelsOf ops samples))) * (3 / 10)) * 100 ≤ 100
  have hb : 0 ≤ (occamSelect (sortModels (modelsOf ops samples))).rmse :=
    modelsOf_rmse_nonneg hs samples _ (occamSelect_mem_modelsOf ops samples)
  have h1 : fitQuality (occamSelect (sortModels (modelsOf ops samples)))
      (listMean (samples.map Sample.time)) ≤ 1 := fitQuality_le_one _ _ hb
  have h2 : separationScore (sortModels (sortModels (modelsOf ops samples)))
      (occamSelect (sortModels (modelsOf ops samples))) ≤ 1 := separationScore_le_one _ _
  linarith

lemma find?_o1_eq (ops : MathOps) (samples : List Sample) :
    (sortModels (modelsOf ops samples)).find? (fun m => strIncludes m.type "O(1)") =
      some ⟨"O(1) - Constant", constantRMSE ops samples, 1⟩ := by
  apply find?_eq_some_of_unique
  · exact mem_sortModels.mpr (by simp [modelsOf])
  · exact (by decide : strIncludes "O(1) - Constant" "O(1)" = true)
  · intro b hb hpb
    have hb2 := mem_sortModels.mp hb
    simp only [modelsOf, List.mem_cons, List.not_mem_nil, or_false] at hb2
    rcases hb2 with rfl | rfl | rfl | rfl | rfl
    · rfl
    · exact absurd (show strIncludes "O(log n) - Logarithmic" "O(1)" = true from hpb) (by decide)
    · exact absurd (show strIncludes "O(n) - Linear" "O(1)" = true from hpb) (by decide)
    · exact absurd (show strIncludes "O(n log n) - Linear-ithmic" "O(1)" = true from hpb) (by decide)
    · exact absurd (show strIncludes "O(n^2) - Quadratic" "O(1)" = true from hpb) (by decide)

lemma find?_log_eq (ops : MathOps) (samples : List Sample) :
    (sortModels (modelsOf ops samples)).find? (fun m => strIncludes m.type "O(log n)") =
      some ⟨"O(log n) - Logarithmic", logRMSE ops samples, 2⟩ := by
  apply find?_eq_some_of_unique
  · exact mem_sortModels.mpr (by simp [modelsOf])
  · exact (by decide : strIncludes "O(log n) - Logarithmic" "O(log n)" = true)
  · intro b hb hpb
    have hb2 := mem_sortModels.mp hb
    simp only [modelsOf, List.mem_cons, List.not_mem_nil, or_false] at hb2
    rcases hb2 with rfl | rfl | rfl | rfl | rfl
    · exact absurd (show strIncludes "O(1) - Constant" "O(log n)" = true from hpb) (by decide)
    · rfl
    · exact absurd (show strIncludes "O(n) - Linear" "O(log n)" = true from hpb) (by decide)
    · exact absurd (show strIncludes "O(n log n) - Linear-ithmic" "O(log n)" = true from hpb) (by decide)
    · exact absurd (show strIncludes "O(n^2) - Quadratic" "O(log n)" = true from hpb) (by decide)

section
attribute [local semireducible] Rat.add Rat.mul Rat.sub Rat.inv Rat.ofScientific

/-- C2 counterexample: a standard-regime dataset on which the code's scan
in ascending RMSE order selects `O(n) - Linear`, while the claimed scan in
ascending simplicity rank order (`scanBySimplicityRank`, formalising the
claim's words) selects `O(n log n) - Linear-ithmic`. -/
theorem c2_counterexample :
    ¬ listMean (([⟨1, 6⟩, ⟨2, 2⟩, ⟨3, 6⟩, ⟨4, 7⟩, ⟨5, 20⟩] : List Sample).map Sample.time)
        < 1 / 10000 ∧
    (determineComplexity ratOps [⟨1, 6⟩, ⟨2, 2⟩, ⟨3, 6⟩, ⟨4, 7⟩, ⟨5, 20⟩]).bestFit =
      "O(n) - Linear" ∧
    (scanBySimplicityRank
        (modelsOf ratOps [⟨1, 6⟩, ⟨2, 2⟩, ⟨3, 6⟩, ⟨4, 7⟩, ⟨5, 20⟩])).type =
      "O(n log n) - Linear-ithmic" := by
  refine ⟨?_, ?_, ?_⟩ <;> decide

/-- C2 (amended): in the standard regime the classifier selects the best
fit by scanning the models in ascending RMSE order — the RMSE-sorted
array, starting from its minimum-RMSE head — promoting any candidate that
is simpler (lower rank) than the current best fit whenever
`(candidate.rmse − best.rmse) / best.rmse < 0.15` (with denominator 1e-9
when the best RMSE is 0); the scan is not in ascending simplicity rank
order. -/
theorem c2_scan_ascending_rmse (ops : MathOps) (samples : List Sample)
    (h : ¬ listMean (samples.map Sample.time) < 1 / 10000) :
    (determineComplexity ops samples).bestFit =
      (List.foldl promoteStep (sortModels (modelsOf ops samples)).headI
        (sortModels (modelsOf ops samples)).tail).type ∧
    List.Sorted rmseLE (sortModels (modelsOf ops samples)) := by
  constructor
  · rw [determineComplexity_of_standard ops samples h]
    rfl
  · exact sortModels_sorted _

/-- Witness for `c2_scan_ascending_rmse` at a concrete standard-regime
dataset. -/
theorem c2_scan_ascending_rmse_witness :
    (¬ listMean (([⟨1, 1⟩, ⟨2, 1⟩] : List Sample).map Sample.time) < 1 / 10000) ∧
    ((determineComplexity ratOps [⟨1, 1⟩, ⟨2, 1⟩]).bestFit =
      (List.foldl promoteStep (sortModels (modelsOf ratOps [⟨1, 1⟩, ⟨2, 1⟩])).headI
        (sortModels (modelsOf ratOps [⟨1, 1⟩, ⟨2, 1⟩])).tail).type ∧
    List.Sorted rmseLE (sortModels (modelsOf ratOps [⟨1, 1⟩, ⟨2, 1⟩]))) :=
  ⟨by decide, c2_scan_ascending_rmse ratOps [⟨1, 1⟩, ⟨2, 1⟩] (by decide)⟩

/-- C3: on at least two samples whose mean time is below 1e-4, the
classifier returns the logarithmic model when its RMSE is strictly lower
than the constant model's RMSE and the constant model otherwise (never
any of the other three models), with confidence exactly 95. -/
theorem c3_ultra_fast (ops : MathOps) (samples : List Sample)
    (_h2 : 2 ≤ samples.length)
    (hu : listMean (samples.map Sample.time) < 1 / 10000) :
    (determineComplexity ops samples).bestFit =
      (if logRMSE ops samples < constantRMSE ops samples
       then "O(log n) - Logarithmic" else "O(1) - Constant") ∧
    (determineComplexity ops samples).confidence = 95 := by
  rw [determineComplexity_of_ultra ops samples hu]
  constructor
  · show (ultraSelect (sortModels (modelsOf ops samples))).type = _
    unfold ultraSelect
    simp only [find?_o1_eq, find?_log_eq]
    rw [apply_ite Model.type]
  · show jsRound 95 = 95
    decide

/-- Witness for `c3_ultra_fast` at two all-zero-time samples. -/
theorem c3_ultra_fast_witness :
    (2 ≤ ([⟨1, 0⟩, ⟨2, 0⟩] : List Sample).length) ∧
    (listMean (([⟨1, 0⟩, ⟨2, 0⟩] : List Sample).map Sample.time) < 1 / 10000) ∧
    ((determineComplexity ratOps [⟨1, 0⟩, ⟨2, 0⟩]).bestFit =
      (if logRMSE ratOps [⟨1, 0⟩, ⟨2, 0⟩] < constantRMSE ratOps [⟨1, 0⟩, ⟨2, 0⟩]
       then "O(log n) - Logarithmic" else "O(1) - Constant") ∧
    (determineComplexity ratOps [⟨1, 0⟩, ⟨2, 0⟩]).confidence = 95) :=
  ⟨by decide, by decide, c3_ultra_fast ratOps [⟨1, 0⟩, ⟨2, 0⟩] (by decide) (by decide)⟩

/-- C4 counterexample: a valid standard-regime dataset (distinct positive
sizes, non-negative times, mean time well above 1e-4) on which the
returned confidence is −8, violating the claimed bound
`0 ≤ confidence`. -/
theorem c4_counterexample :
    ¬ listMean (([⟨1, 9⟩, ⟨2, 1⟩, ⟨4, 3⟩, ⟨8, 20⟩] : List Sample).map Sample.time)
        < 1 / 10000 ∧
    (determineComplexity ratOps [⟨1, 9⟩, ⟨2, 1⟩, ⟨4, 3⟩, ⟨8, 20⟩]).confidence = -8 ∧
    (determineComplexity ratOps [⟨1, 9⟩, ⟨2, 1⟩, ⟨4, 3⟩, ⟨8, 20⟩]).confidence < 0 := by
  refine ⟨?_, ?_, ?_⟩ <;> decide

/-- C4 (amended): the confidence never exceeds 100, and in the standard
regime equals `round(100 × (0.7 × fitQuality + 0.3 × separation))`; the
claimed lower bound 0 fails, because after a simplicity-tie-break
promotion the separation term can be negative while the fit-quality term
is 0. -/
theorem c4_confidence_formula (ops : MathOps) (samples : List Sample)
    (_h2 : 2 ≤ samples.length) (hs : ∀ q, 0 ≤ ops.sqrt q) :
    (determineComplexity ops samples).confidence ≤ 100 ∧
    (¬ listMean (samples.map Sample.time) < 1 / 10000 →
      (determineComplexity ops samples).confidence =
        jsRound (100 * ((7 / 10) *
            fitQuality (occamSelect (sortModels (modelsOf ops samples)))
              (listMean (samples.map Sample.time)) +
          (3 / 10) *
            separationScore (sortModels (sortModels (modelsOf ops samples)))
              (occamSelect (sortModels (modelsOf ops samples)))))) := by
  constructor
  · unfold determineComplexity
    split
    · show jsRound 95 ≤ 100
      decide
    · show jsRound (standardConfidence ops samples) ≤ 100
      have hle := standardConfidence_le_100 hs samples
      have : jsRound (standardConfidence ops samples) ≤ jsRound 100 := by
        unfold jsRound
        exact Int.floor_le_floor (by linarith)
      calc jsRound (standardConfidence ops samples) ≤ jsRound 100 := this
        _ = 100 := by decide
  · intro h
    rw [determineComplexity_of_standard ops samples h]
    show jsRound (standardConfidence ops samples) = _
    congr 1
    show (fitQuality (occamSelect (sortModels (modelsOf ops samples)))
            (listMean (samples.map Sample.time)) * (7 / 10) +
          separationScore (sortModels (sortModels (modelsOf ops samples)))
            (occamSelect (sortModels (modelsOf ops samples))) * (3 / 10)) * 100 = _
    ring

/-- Witness for `c4_confidence_formula` at a concrete standard-regime
dataset and the concrete `ratOps`. -/
theorem c4_confidence_formula_witness :
    (2 ≤ ([⟨1, 1⟩, ⟨2, 1⟩] : List Sample).length) ∧
    (∀ q, 0 ≤ ratOps.sqrt q) ∧
    ((determineComplexity ratOps [⟨1, 1⟩, ⟨2, 1⟩]).confidence ≤ 100 ∧
    (¬ listMean (([⟨1, 1⟩, ⟨2, 1⟩] : List Sample).map Sample.time) < 1 / 10000 →
      (determineComplexity ratOps [⟨1, 1⟩, ⟨2, 1⟩]).confidence =
        jsRound (100 * ((7 / 10) *
            fitQuality (occamSelect (sortModels (modelsOf ratOps [⟨1, 1⟩, ⟨2, 1⟩])))
              (listMean (([⟨1, 1⟩, ⟨2, 1⟩] : List Sample).map Sample.time)) +
          (3 / 10) *
            separationScore (sortModels (sortModels (modelsOf ratOps [⟨1, 1⟩, ⟨2, 1⟩])))
              (occamSelect (sortModels (modelsOf ratOps [⟨1, 1⟩, ⟨2, 1⟩]))))))) :=
  ⟨by decide, fun q => ratSqrt_nonneg q,
   c4_confidence_formula ratOps [⟨1, 1⟩, ⟨2, 1⟩] (by decide) (fun q => ratSqrt_nonneg q)⟩

/-- C5: for every sample sequence of at least two samples, the returned
fits list has exactly five entries (one per catalog model) and is sorted
by non-decreasing RMSE. -/
theorem c5_fits_sorted (ops : MathOps) (samples : List Sample)
    (_h2 : 2 ≤ samples.length) :
    (determineComplexity ops samples).results.length = 5 ∧
    List.Sorted fitLE (determineComplexity ops samples).results := by
  constructor
  · exact determineComplexity_results_length ops samples
  · rw [determineComplexity_results_eq]
    exact sortFits_sorted _

/-- Witness for `c5_fits_sorted`. -/
theorem c5_fits_sorted_witness :
    (2 ≤ ([⟨1, 1⟩, ⟨2, 1⟩] : List Sample).length) ∧
    ((determineComplexity ratOps [⟨1, 1⟩, ⟨2, 1⟩]).results.length = 5 ∧
    List.Sorted fitLE (determineComplexity ratOps [⟨1, 1⟩, ⟨2, 1⟩]).results) :=
  ⟨by decide, c5_fits_sorted ratOps [⟨1, 1⟩, ⟨2, 1⟩] (by decide)⟩

/-- C6 counterexample: a sample list containing a negative time is fed
unchanged into regression: instead of dropping the sample and (with one
valid sample left) returning the degenerate insufficient-data result, the
classifier returns a full five-model classification
(`O(log n)`, confidence 95). -/
theorem c6_counterexample :
    (determineComplexity ratOps [⟨1, -1⟩, ⟨2, 1⟩]).bestFit = "O(log n) - Logarithmic" ∧
    (determineComplexity ratOps [⟨1, -1⟩, ⟨2, 1⟩]).confidence = 95 ∧
    (determineComplexity ratOps [⟨1, -1⟩, ⟨2, 1⟩]).results.length = 5 ∧
    ¬ (determineComplexity ratOps [⟨1, -1⟩, ⟨2, 1⟩]).bestFit = "N/A" := by
  refine ⟨?_, ?_, ?_, ?_⟩ <;> decide

/-- C6 (amended): the classifier performs no validation of time values:
every sample (negative or otherwise) participates in regression, and the
result is always a full five-model classification whose best fit is one
of the five catalog labels — never a degenerate rejection. -/
theorem c6_no_time_validation (ops : MathOps) (samples : List Sample)
    (_h2 : 2 ≤ samples.length) :
    (determineComplexity ops samples).results.length = 5 ∧
    (determineComplexity ops samples).bestFit ∈ (modelsOf ops samples).map Model.type := by
  constructor
  · exact determineComplexity_results_length ops samples
  · by_cases hu : listMean (samples.map Sample.time) < 1 / 10000
    · rw [determineComplexity_of_ultra ops samples hu]
      show (ultraSelect (sortModels (modelsOf ops samples))).type ∈ _
      exact List.mem_map_of_mem Model.type
        (mem_sortModels.mp (ultraSelect_mem (sortModels_modelsOf_ne_nil ops samples)))
    · rw [determineComplexity_of_standard ops samples hu]
      show (occamSelect (sortModels (modelsOf ops samples))).type ∈ _
      exact List.mem_map_of_mem Model.type (occamSelect_mem_modelsOf ops samples)

/-- Witness for `c6_no_time_validation` at the negative-time dataset. -/
theorem c6_no_time_validation_witness :
    (2 ≤ ([⟨1, -1⟩, ⟨2, 1⟩] : List Sample).length) ∧
    ((determineComplexity ratOps [⟨1, -1⟩, ⟨2, 1⟩]).results.length = 5 ∧
    (determineComplexity ratOps [⟨1, -1⟩, ⟨2, 1⟩]).bestFit ∈
      (modelsOf ratOps [⟨1, -1⟩, ⟨2, 1⟩]).map Model.type) :=
  ⟨by decide, c6_no_time_validation ratOps [⟨1, -1⟩, ⟨2, 1⟩] (by decide)⟩

/-- C10: in the standard regime the simplicity tie-break never increases
complexity: the returned best fit's complexity rank is at most the rank
of the head of the RMSE-sorted model list, and that head attains the
globally minimum RMSE among the five models. -/
theorem c10_no_complexity_increase (ops : MathOps) (samples : List Sample)
    (_h2 : 2 ≤ samples.length)
    (h : ¬ listMean (samples.map Sample.time) < 1 / 10000) :
    (determineComplexity ops samples).bestFit =
      (occamSelect (sortModels (modelsOf ops samples))).type ∧
    (occamSelect (sortModels (modelsOf ops samples))).complexity ≤
      ((sortModels (modelsOf ops samples)).headI).complexity ∧
    ∀ m ∈ modelsOf ops samples,
      ((sortModels (modelsOf ops samples)).headI).rmse ≤ m.rmse := by
  refine ⟨?_, ?_, ?_⟩
  · rw [determineComplexity_of_standard ops samples h]
    rfl
  · exact foldl_promoteStep_complexity_le _ _
  · intro m hm
    exact sorted_headI_le (sortModels_sorted _) (mem_sortModels.mpr hm)

/-- Witness for `c10_no_complexity_increase`. -/
theorem c10_no_complexity_increase_witness :
    (2 ≤ ([⟨1, 1⟩, ⟨2, 1⟩] : List Sample).length) ∧
    (¬ listMean (([⟨1, 1⟩, ⟨2, 1⟩] : List Sample).map Sample.time) < 1 / 10000) ∧
    ((determineComplexity ratOps [⟨1, 1⟩, ⟨2, 1⟩]).bestFit =
      (occamSelect (sortModels (modelsOf ratOps [⟨1, 1⟩, ⟨2, 1⟩]))).type ∧
    (occamSelect (sortModels (modelsOf ratOps [⟨1, 1⟩, ⟨2, 1⟩]))).complexity ≤
      ((sortModels (modelsOf ratOps [⟨1, 1⟩, ⟨2, 1⟩])).headI).complexity ∧
    ∀ m ∈ modelsOf ratOps [⟨1, 1⟩, ⟨2, 1⟩],
      ((sortModels (modelsOf ratOps [⟨1, 1⟩, ⟨2, 1⟩])).headI).rmse ≤ m.rmse) :=
  ⟨by decide, by decide,
   c10_no_complexity_increase ratOps [⟨1, 1⟩, ⟨2, 1⟩] (by decide) (by decide)⟩

end
